import Mathlib

/-!
Shallow embedding of the Virtual Suggestion Box (src/suggestion_box.py, the
final revision of the program) and proofs about its enrichment and storage
pipeline.

Python strings are modelled as lists of characters (`Str`).  The module-level
globals (`suggestions`, `questions`, `categories`) together with the two
durable log files are gathered into an explicit state record `BoxState`;
every function that mutates a global becomes a function from state to state.
External collaborators (language detection, translation, TextBlob polarity
scoring) are passed in as function parameters; a `none` result models the
library call raising an exception.  The outcome of `json.loads` on a line of
the suggestions log is modelled by the inductive `SugLine`: a line can be
blank, fail to parse as JSON (`json.JSONDecodeError`, which the code
catches), parse as JSON without yielding a subscriptable record carrying a
`text` field (in which case `entry['text']` raises an uncaught exception),
or yield a record with a text and an optional sentiment field.
-/

namespace SuggestionBox

/-- Python strings as lists of characters. -/
abbrev Str := List Char

/-- Python substring test `needle in hay`. -/
def strIn (needle hay : Str) : Bool := decide (needle <:+: hay)

/-- Python `str.lower()` (the inputs we reason about are ASCII). -/
def pyLower (s : Str) : Str := s.map Char.toLower

/-- Python `str.strip()`: drop leading and trailing whitespace. -/
def pyStrip (s : Str) : Str :=
  ((s.dropWhile Char.isWhitespace).reverse.dropWhile Char.isWhitespace).reverse

/-- The fixed closed category set of the classifier (keys of the
`categories` dict; `Other` is the fallback). -/
inductive Category
  | Facility
  | WorkProcess
  | Benefits
  | Other
deriving DecidableEq, Repr

/-- The keyword table `category_keywords` of src/suggestion_box.py, in the
dict insertion order Facility, Work Process, Benefits. -/
def category_keywords : List (Category × List Str) :=
  [(Category.Facility,
      (["office", "room", "desk", "chair", "light", "building"].map String.toList)),
   (Category.WorkProcess,
      (["workflow", "schedule", "process", "meeting", "task", "communication"].map String.toList)),
   (Category.Benefits,
      (["bonus", "leave", "health", "insurance", "raise", "salary"].map String.toList))]

/-- The four category buckets of the `categories` dict. -/
structure Buckets where
  facility : List Str
  workProcess : List Str
  benefits : List Str
  other : List Str
deriving DecidableEq, Repr

/-- The bucket of a given category. -/
def bucketOf (b : Buckets) : Category → List Str
  | Category.Facility => b.facility
  | Category.WorkProcess => b.workProcess
  | Category.Benefits => b.benefits
  | Category.Other => b.other

/-- Append a text to the bucket of a category (`categories[category].append`). -/
def bucketAppend (b : Buckets) (c : Category) (t : Str) : Buckets :=
  match c with
  | Category.Facility => { b with facility := b.facility ++ [t] }
  | Category.WorkProcess => { b with workProcess := b.workProcess ++ [t] }
  | Category.Benefits => { b with benefits := b.benefits ++ [t] }
  | Category.Other => { b with other := b.other ++ [t] }

/-- The initial, empty `categories` dict. -/
def emptyBuckets : Buckets := ⟨[], [], [], []⟩

/-- The loop of `categorize_suggestion`: walk the keyword table, append the
text to the first category one of whose keywords occurs in the lower-cased
text and return that category; fall through to Other. -/
def categorizeFrom : List (Category × List Str) → Str → Str → Buckets → Category × Buckets
  | [], text, _, b => (Category.Other, bucketAppend b Category.Other text)
  | (c, ks) :: rest, text, textLower, b =>
    if ks.any (fun k => strIn k textLower) then (c, bucketAppend b c text)
    else categorizeFrom rest text textLower b

/-- `categorize_suggestion(text)`: lower-case the text, walk
`category_keywords`, store the text in the bucket of the chosen category and
return that category. -/
def categorize_suggestion (text : Str) (b : Buckets) : Category × Buckets :=
  categorizeFrom category_keywords text (pyLower text) b

/-- The pure classification decision of `categorize_suggestion`, without the
bucket side effect: first category in table order with a keyword hit. -/
def classifyFrom : List (Category × List Str) → Str → Category
  | [], _ => Category.Other
  | (c, ks) :: rest, textLower =>
    if ks.any (fun k => strIn k textLower) then c else classifyFrom rest textLower

/-- Pure category decision for a text. -/
def classify (text : Str) : Category := classifyFrom category_keywords (pyLower text)

/-- `analyze_sentiment(text)`.  The TextBlob polarity of the text is passed
in as an optional rational; `none` models the scoring call raising, which
the function catches, returning Neutral. -/
def analyze_sentiment (polarity : Option ℚ) : Str :=
  match polarity with
  | none => "Neutral".toList
  | some p =>
    if p > 1/10 then "Positive".toList
    else if p < -(1/10) then "Negative".toList
    else "Neutral".toList

/-- `detect_and_translate(text)`.  `detect` and `translate` are the external
langdetect and googletrans calls; `none` models the call raising, which the
surrounding `try` catches, returning the original text. -/
def detect_and_translate (detect : Str → Option Str) (translate : Str → Option Str)
    (text : Str) : Str :=
  match detect text with
  | none => text
  | some lang =>
    if lang ≠ "en".toList then
      match translate text with
      | none => text
      | some translated => translated
    else text

/-- An element of the `suggestions` list: a dict with a text field and,
when present, a sentiment field. -/
structure SuggestionEntry where
  text : Str
  sentiment : Option Str
deriving DecidableEq, Repr

/-- One line of suggestions.txt as seen by `load_suggestions`, classified by
what `json.loads` does to it (see the module docstring above). -/
inductive SugLine
  | blank
  | notJson
  | jsonNoText
  | record (entry : SuggestionEntry)
deriving DecidableEq, Repr

/-- The whole program state: the three module-level collections plus the two
durable log files (`none` models a file that does not exist on disk). -/
structure BoxState where
  suggestions : List SuggestionEntry
  questions : List (Str × List Str)
  categories : Buckets
  sugFile : Option (List SugLine)
  qFile : Option (List Str)
deriving DecidableEq

/-- The state of a fresh, never-used store: empty collections, no files. -/
def emptyState : BoxState := ⟨[], [], emptyBuckets, none, none⟩

instance {ε α : Type} [DecidableEq ε] [DecidableEq α] : DecidableEq (Except ε α) :=
  fun x y =>
    match x, y with
    | Except.ok a, Except.ok b =>
      if h : a = b then isTrue (by rw [h]) else isFalse (fun hh => h (Except.ok.inj hh))
    | Except.error a, Except.error b =>
      if h : a = b then isTrue (by rw [h]) else isFalse (fun hh => h (Except.error.inj hh))
    | Except.ok _, Except.error _ => isFalse (fun hh => Except.noConfusion hh)
    | Except.error _, Except.ok _ => isFalse (fun hh => Except.noConfusion hh)

/-- `save_suggestion(suggestion)`: append one JSON record line to
suggestions.txt (opening in append mode creates a missing file). -/
def save_suggestion (st : BoxState) (entry : SuggestionEntry) : BoxState :=
  { st with sugFile := some (st.sugFile.getD [] ++ [SugLine.record entry]) }

/-- The loop of `load_suggestions` over the lines of suggestions.txt, acting
on the `suggestions` list and the `categories` buckets.  A `jsonNoText` line
raises an uncaught exception: the fold stops and reports the state reached
so far as an error.  A `notJson` line only triggers the caught
`json.JSONDecodeError`, printing a warning and continuing. -/
def loadSugLines : List SugLine → List SuggestionEntry → Buckets →
    Except (List SuggestionEntry × Buckets) (List SuggestionEntry × Buckets)
  | [], sugs, b => Except.ok (sugs, b)
  | SugLine.blank :: rest, sugs, b => loadSugLines rest sugs b
  | SugLine.notJson :: rest, sugs, b => loadSugLines rest sugs b
  | SugLine.jsonNoText :: _, sugs, b => Except.error (sugs, b)
  | SugLine.record entry :: rest, sugs, b =>
    loadSugLines rest (sugs ++ [entry]) (categorize_suggestion entry.text b).2

/-- `load_suggestions()`: if suggestions.txt exists, replay its lines into
the in-memory state; an error value means the Python function raised. -/
def load_suggestions (st : BoxState) : Except BoxState BoxState :=
  match st.sugFile with
  | none => Except.ok st
  | some lines =>
    match loadSugLines lines st.suggestions st.categories with
    | Except.ok (s, b) => Except.ok { st with suggestions := s, categories := b }
    | Except.error (s, b) => Except.error { st with suggestions := s, categories := b }

/-- Dict lookup `questions[q]` / membership `q in questions` on the
insertion-ordered association list modelling the `questions` dict. -/
def qLookup : List (Str × List Str) → Str → Option (List Str)
  | [], _ => none
  | (q, ans) :: rest, key => if q = key then some ans else qLookup rest key

/-- `questions[q].append(a)`: append an answer to the entry of key `q`. -/
def qAddAnswer : List (Str × List Str) → Str → Str → List (Str × List Str)
  | [], _, _ => []
  | (q, ans) :: rest, key, a =>
    if q = key then (q, ans ++ [a]) :: rest else (q, ans) :: qAddAnswer rest key a

/-- The body of the `load_questions` loop for one line of questions.txt,
acting on the `questions` dict and the `current_question` variable. -/
def loadQLine (acc : List (Str × List Str) × Option Str) (rawLine : Str) :
    List (Str × List Str) × Option Str :=
  let line := pyStrip rawLine
  if List.isPrefixOf "Q: ".toList line then
    ((if (qLookup acc.1 (line.drop 3)).isSome then acc.1
      else acc.1 ++ [(line.drop 3, [])]),
     some (line.drop 3))
  else if List.isPrefixOf "A: ".toList line then
    match acc.2 with
    | some q => (qAddAnswer acc.1 q (line.drop 3), acc.2)
    | none => acc
  else if line = "---".toList then (acc.1, none)
  else acc

/-- The loop of `load_questions` over the lines of questions.txt. -/
def loadQLines (lines : List Str) (qs : List (Str × List Str)) (cur : Option Str) :
    List (Str × List Str) × Option Str :=
  lines.foldl loadQLine (qs, cur)

/-- `load_questions()`: if questions.txt exists, replay its record blocks
into the `questions` dict. -/
def load_questions (st : BoxState) : BoxState :=
  match st.qFile with
  | none => st
  | some lines => { st with questions := (loadQLines lines st.questions none).1 }

/-- `save_question(question, answer)`: append a record block (question line,
optional answer line, end-of-record delimiter) to questions.txt. -/
def save_question (st : BoxState) (question : Str) (answer : Option Str) : BoxState :=
  { st with qFile := some (st.qFile.getD [] ++
      ("Q: ".toList ++ question) ::
        ((match answer with
          | some a => ["A: ".toList ++ a]
          | none => []) ++ ["---".toList])) }

/-- `delete_all_data()`: clear all three in-memory collections and remove
both log files. -/
def delete_all_data (st : BoxState) : BoxState :=
  { st with suggestions := [], questions := [], categories := emptyBuckets,
            sugFile := none, qFile := none }

/-- `add_suggestion()` on a given raw input: normalize, score sentiment,
append the record to memory and to the durable log, then categorize. -/
def add_suggestion (normalize : Str → Str) (score : Str → Option ℚ)
    (st : BoxState) (original : Str) : BoxState :=
  let translated := normalize original
  let sentiment := analyze_sentiment (score translated)
  let entry : SuggestionEntry := ⟨translated, some sentiment⟩
  let st1 := { st with suggestions := st.suggestions ++ [entry] }
  let st2 := save_suggestion st1 entry
  { st2 with categories := (categorize_suggestion translated st2.categories).2 }

/-- Outcome of a question submission. -/
inductive SubmitResult
  | accepted
  | rejected
deriving DecidableEq, Repr

/-- `add_question()` on a given raw input: normalize, then either create the
question with an empty answer list (memory and log) or reject a duplicate
without any mutation. -/
def add_question (normalize : Str → Str) (st : BoxState) (question : Str) :
    SubmitResult × BoxState :=
  let translated := normalize question
  if qLookup st.questions translated = none then
    (SubmitResult.accepted,
      save_question { st with questions := st.questions ++ [(translated, [])] }
        translated none)
  else (SubmitResult.rejected, st)

/-- The startup sequence of `main()`: `load_suggestions()` then
`load_questions()`; if the former raises, the latter never runs. -/
def restore (st : BoxState) : Except BoxState BoxState :=
  match load_suggestions st with
  | Except.ok st1 => Except.ok (load_questions st1)
  | Except.error st1 => Except.error st1

/-- Clear the in-memory collections, keeping the files: the state a process
restart begins from. -/
def clearMemory (st : BoxState) : BoxState :=
  { st with suggestions := [], questions := [], categories := emptyBuckets }

/-- A simulated program restart: fresh globals, then the startup restore. -/
def restart (st : BoxState) : Except BoxState BoxState := restore (clearMemory st)

/-- `view_summary()`: the count displayed for a category. -/
def view_summary (st : BoxState) (c : Category) : Nat :=
  (bucketOf st.categories c).length

/-- The sentiment-lookup join of `view_suggestions_by_category`: default
"Unknown", replaced by the sentiment of the first entry of the main
`suggestions` list with exactly equal text, when that entry has one. -/
def lookupSentiment (sugs : List SuggestionEntry) (text : Str) : Str :=
  match sugs.find? (fun sug => decide (sug.text = text)) with
  | some sug => sug.sentiment.getD "Unknown".toList
  | none => "Unknown".toList

/-- `view_suggestions_by_category()` restricted to one chosen category: the
displayed (text, sentiment) lines. -/
def view_suggestions_by_category (st : BoxState) (c : Category) : List (Str × Str) :=
  (bucketOf st.categories c).map (fun t => (t, lookupSentiment st.suggestions t))

/-- States reachable by any sequence of suggestion submissions, clean
restarts and wipes, from the fresh store. -/
inductive Reachable : BoxState → Prop
  | init : Reachable emptyState
  | submit {st : BoxState} (normalize : Str → Str) (score : Str → Option ℚ) (raw : Str) :
      Reachable st → Reachable (add_suggestion normalize score st raw)
  | restartStep {st st1 : BoxState} :
      Reachable st → restart st = Except.ok st1 → Reachable st1
  | wipe {st : BoxState} : Reachable st → Reachable (delete_all_data st)

/-! ## Helper lemmas -/

lemma strIn_iff (k h : Str) : strIn k h = true ↔ k <:+: h := by
  simp [strIn]

lemma any_strIn_iff (ks : List Str) (tl : Str) :
    (ks.any (fun k => strIn k tl)) = true ↔ ∃ k ∈ ks, k <:+: tl := by
  simp [List.any_eq_true, strIn]

/-- Spec-side predicate: some configured keyword of category `c` occurs as a
substring of the lower-cased text. -/
def matchesCategory (c : Category) (text : Str) : Prop :=
  ∃ p ∈ category_keywords, p.1 = c ∧ ∃ k ∈ p.2, k <:+: pyLower text

instance (c : Category) (text : Str) : Decidable (matchesCategory c text) := by
  unfold matchesCategory; infer_instance

lemma categorizeFrom_eq (kws : List (Category × List Str)) (text tl : Str) (b : Buckets) :
    categorizeFrom kws text tl b =
      (classifyFrom kws tl, bucketAppend b (classifyFrom kws tl) text) := by
  induction kws generalizing b with
  | nil => rfl
  | cons p rest ih =>
    obtain ⟨c, ks⟩ := p
    by_cases h : (ks.any (fun k => strIn k tl)) = true <;>
      simp [categorizeFrom, classifyFrom, h, ih]

lemma categorize_suggestion_eq (text : Str) (b : Buckets) :
    categorize_suggestion text b = (classify text, bucketAppend b (classify text) text) :=
  categorizeFrom_eq category_keywords text (pyLower text) b

lemma matchesCategory_facility (text : Str) :
    matchesCategory Category.Facility text ↔
      ∃ k ∈ (["office", "room", "desk", "chair", "light", "building"].map String.toList),
        k <:+: pyLower text := by
  simp [matchesCategory, category_keywords]

lemma matchesCategory_workProcess (text : Str) :
    matchesCategory Category.WorkProcess text ↔
      ∃ k ∈ (["workflow", "schedule", "process", "meeting", "task", "communication"].map String.toList),
        k <:+: pyLower text := by
  simp [matchesCategory, category_keywords]

lemma matchesCategory_benefits (text : Str) :
    matchesCategory Category.Benefits text ↔
      ∃ k ∈ (["bonus", "leave", "health", "insurance", "raise", "salary"].map String.toList),
        k <:+: pyLower text := by
  simp [matchesCategory, category_keywords]

lemma categorize_suggestion_fst (text : Str) (b : Buckets) :
    (categorize_suggestion text b).1 = classify text := by
  rw [categorize_suggestion_eq]

lemma classify_cases (text : Str) :
    classify text =
      if (((["office", "room", "desk", "chair", "light", "building"].map String.toList)).any
          (fun k => strIn k (pyLower text))) then Category.Facility
      else if (((["workflow", "schedule", "process", "meeting", "task", "communication"].map
            String.toList)).any (fun k => strIn k (pyLower text))) then Category.WorkProcess
      else if (((["bonus", "leave", "health", "insurance", "raise", "salary"].map
            String.toList)).any (fun k => strIn k (pyLower text))) then Category.Benefits
      else Category.Other := rfl

/-! ## C1: category classifier priority order -/

/-- C1: the category classifier lower-cases the text, tests the categories
in the fixed priority order Facility, Work Process, Benefits, returns the
first category one of whose configured keywords occurs as a substring of
the lower-cased text, and returns Other when no category's keywords match;
a text matching keywords of two categories is assigned the earlier-ordered
one. -/
theorem categorize_suggestion_priority (text : Str) (b : Buckets) :
    (matchesCategory Category.Facility text →
      (categorize_suggestion text b).1 = Category.Facility)
    ∧ (¬ matchesCategory Category.Facility text →
      matchesCategory Category.WorkProcess text →
      (categorize_suggestion text b).1 = Category.WorkProcess)
    ∧ (¬ matchesCategory Category.Facility text →
      ¬ matchesCategory Category.WorkProcess text →
      matchesCategory Category.Benefits text →
      (categorize_suggestion text b).1 = Category.Benefits)
    ∧ ((∀ c, ¬ matchesCategory c text) →
      (categorize_suggestion text b).1 = Category.Other) := by
  have eFac : matchesCategory Category.Facility text ↔
      (((["office", "room", "desk", "chair", "light", "building"].map String.toList)).any
        (fun k => strIn k (pyLower text))) = true :=
    (matchesCategory_facility text).trans (any_strIn_iff _ _).symm
  have eWp : matchesCategory Category.WorkProcess text ↔
      (((["workflow", "schedule", "process", "meeting", "task", "communication"].map
          String.toList)).any (fun k => strIn k (pyLower text))) = true :=
    (matchesCategory_workProcess text).trans (any_strIn_iff _ _).symm
  have eBen : matchesCategory Category.Benefits text ↔
      (((["bonus", "leave", "health", "insurance", "raise", "salary"].map
          String.toList)).any (fun k => strIn k (pyLower text))) = true :=
    (matchesCategory_benefits text).trans (any_strIn_iff _ _).symm
  rw [categorize_suggestion_fst, classify_cases]
  refine ⟨fun h1 => ?_, fun h1 h2 => ?_, fun h1 h2 h3 => ?_, fun h => ?_⟩
  · rw [if_pos (eFac.mp h1)]
  · rw [if_neg (fun hb => h1 (eFac.mpr hb)), if_pos (eWp.mp h2)]
  · rw [if_neg (fun hb => h1 (eFac.mpr hb)), if_neg (fun hb => h2 (eWp.mpr hb)),
      if_pos (eBen.mp h3)]
  · rw [if_neg (fun hb => h Category.Facility (eFac.mpr hb)),
      if_neg (fun hb => h Category.WorkProcess (eWp.mpr hb)),
      if_neg (fun hb => h Category.Benefits (eBen.mpr hb))]

/-- Witness for C1: "we should discuss the meeting about my salary" matches
Work Process ("meeting") and Benefits ("salary") but not Facility, and the
classifier assigns the earlier-ordered Work Process. -/
theorem categorize_suggestion_priority_witness :
    ¬ matchesCategory Category.Facility "The Meeting about my salary".toList
    ∧ matchesCategory Category.WorkProcess "The Meeting about my salary".toList
    ∧ matchesCategory Category.Benefits "The Meeting about my salary".toList
    ∧ (categorize_suggestion "The Meeting about my salary".toList emptyBuckets).1 =
        Category.WorkProcess :=
  ⟨by decide, by decide, by decide,
    (categorize_suggestion_priority "The Meeting about my salary".toList emptyBuckets).2.1
      (by decide) (by decide)⟩

/-! ## C3: sentiment thresholds -/

/-- C3: classify_sentiment returns Positive exactly when the polarity score
is greater than 0.1, Negative exactly when it is less than -0.1, Neutral
otherwise (scores in [-0.1, 0.1] inclusive); when scoring fails internally
it returns Neutral; score 0.11 gives Positive, -0.11 gives Negative and
0.05 gives Neutral. -/
theorem analyze_sentiment_thresholds :
    (∀ p : ℚ,
      (analyze_sentiment (some p) = "Positive".toList ↔ p > 1/10)
      ∧ (analyze_sentiment (some p) = "Negative".toList ↔ p < -(1/10))
      ∧ (analyze_sentiment (some p) = "Neutral".toList ↔ -(1/10) ≤ p ∧ p ≤ 1/10))
    ∧ analyze_sentiment none = "Neutral".toList
    ∧ analyze_sentiment (some (11/100)) = "Positive".toList
    ∧ analyze_sentiment (some (-(11/100))) = "Negative".toList
    ∧ analyze_sentiment (some (5/100)) = "Neutral".toList := by
  refine ⟨fun p => ?_, rfl, ?_, ?_, ?_⟩
  · simp only [analyze_sentiment]
    split_ifs with h1 h2
    · refine ⟨⟨fun _ => h1, fun _ => rfl⟩, ⟨fun hh => absurd hh (by decide), fun hh => ?_⟩,
        ⟨fun hh => absurd hh (by decide), fun hh => ?_⟩⟩
      · exfalso; linarith
      · exfalso; have := hh.2; linarith
    · refine ⟨⟨fun hh => absurd hh (by decide), fun hh => ?_⟩, ⟨fun _ => h2, fun _ => rfl⟩,
        ⟨fun hh => absurd hh (by decide), fun hh => ?_⟩⟩
      · exfalso; linarith
      · exfalso; have := hh.1; linarith
    · refine ⟨⟨fun hh => absurd hh (by decide), fun hh => ?_⟩,
        ⟨fun hh => absurd hh (by decide), fun hh => ?_⟩,
        ⟨fun _ => ⟨by linarith, by linarith⟩, fun _ => rfl⟩⟩
      · exfalso; exact h1 hh
      · exfalso; exact h2 hh
  all_goals norm_num [analyze_sentiment]

/-! ## C8: language normalizer never fails -/

/-- C8: normalize never fails the caller: if language detection reports the
text is already English it is returned verbatim with no translation invoked
(the result does not depend on the translator), and on any internal
detection or translation failure the original input is returned
unchanged. -/
theorem detect_and_translate_fallback (detect translate : Str → Option Str) (text : Str) :
    (detect text = some "en".toList →
      ∀ translate2 : Str → Option Str,
        detect_and_translate detect translate2 text = text)
    ∧ (detect text = none → detect_and_translate detect translate text = text)
    ∧ (∀ lang, detect text = some lang → translate text = none →
        detect_and_translate detect translate text = text) := by
  refine ⟨fun h tr2 => ?_, fun h => ?_, fun lang h ht => ?_⟩
  · simp [detect_and_translate, h]
  · simp [detect_and_translate, h]
  · by_cases hl : lang = "en".toList <;> simp [detect_and_translate, h, ht, hl]

/-- Witness for C8 at concrete detectors and translators. -/
theorem detect_and_translate_fallback_witness :
    detect_and_translate (fun _ => some "en".toList) (fun _ => some "X".toList)
        "hola".toList = "hola".toList
    ∧ detect_and_translate (fun _ => none) (fun _ => some "X".toList)
        "hola".toList = "hola".toList
    ∧ detect_and_translate (fun _ => some "es".toList) (fun _ => none)
        "hola".toList = "hola".toList :=
  ⟨(detect_and_translate_fallback (fun _ => some "en".toList) (fun _ => some "X".toList)
      "hola".toList).1 rfl _,
   (detect_and_translate_fallback (fun _ => none) (fun _ => some "X".toList)
      "hola".toList).2.1 rfl,
   (detect_and_translate_fallback (fun _ => some "es".toList) (fun _ => none)
      "hola".toList).2.2 "es".toList rfl rfl⟩

/-! ## C6: wipe leaves a fresh store -/

/-- C6: after wipe() the suggestions list, every category bucket and the
question map are empty, both durable log files are removed, summary()
returns zero for every category, a subsequent restore() leaves the store
empty, and the store equals a fresh, never-used store. -/
theorem delete_all_data_fresh (st : BoxState) :
    delete_all_data st = emptyState
    ∧ (delete_all_data st).suggestions = []
    ∧ (∀ c, bucketOf (delete_all_data st).categories c = [])
    ∧ (delete_all_data st).questions = []
    ∧ (delete_all_data st).sugFile = none
    ∧ (delete_all_data st).qFile = none
    ∧ (∀ c, view_summary (delete_all_data st) c = 0)
    ∧ restore (delete_all_data st) = Except.ok (delete_all_data st) := by
  refine ⟨rfl, rfl, fun c => ?_, rfl, rfl, rfl, fun c => ?_, rfl⟩ <;>
    cases c <;> rfl

/-! ## C5: duplicate questions rejected without mutation -/

lemma qLookup_append_self_isSome (qs : List (Str × List Str)) (q : Str) (l : List Str) :
    (qLookup (qs ++ [(q, l)]) q).isSome := by
  induction qs with
  | nil => simp [qLookup]
  | cons p rest ih =>
    obtain ⟨q1, ans⟩ := p
    by_cases h : q1 = q <;> simp [qLookup, h, ih]

/-- C5: submit_question normalizes the text and checks exact equality
against the existing questions: a present normalized text is rejected with
no mutation of memory or log, an absent one is appended to memory with an
empty answer list and to the durable log; submitting the same text twice
yields Accepted then Rejected. -/
theorem add_question_dedup (normalize : Str → Str) (st : BoxState) (question : Str) :
    ((qLookup st.questions (normalize question)).isSome →
      add_question normalize st question = (SubmitResult.rejected, st))
    ∧ (qLookup st.questions (normalize question) = none →
      (add_question normalize st question).1 = SubmitResult.accepted
      ∧ (add_question normalize st question).2.questions
          = st.questions ++ [(normalize question, [])]
      ∧ (add_question normalize st question).2.qFile
          = some (st.qFile.getD [] ++
              [("Q: ".toList ++ normalize question), "---".toList])
      ∧ (add_question normalize st question).2.suggestions = st.suggestions
      ∧ (add_question normalize st question).2.categories = st.categories
      ∧ (add_question normalize st question).2.sugFile = st.sugFile)
    ∧ (add_question normalize (add_question normalize st question).2 question).1
        = SubmitResult.rejected
    ∧ (add_question normalize (add_question normalize st question).2 question).2
        = (add_question normalize st question).2 := by
  have hrej : ∀ st2 : BoxState, ¬ qLookup st2.questions (normalize question) = none →
      add_question normalize st2 question = (SubmitResult.rejected, st2) := by
    intro st2 hd
    simp [add_question, hd]
  by_cases h : qLookup st.questions (normalize question) = none
  · have hsnd : (add_question normalize st question).2.questions
        = st.questions ++ [(normalize question, [])] := by
      simp [add_question, h, save_question]
    have hdup : ¬ qLookup (add_question normalize st question).2.questions
        (normalize question) = none := by
      rw [hsnd]
      exact Option.isSome_iff_ne_none.mp (qLookup_append_self_isSome _ _ _)
    have h2 := hrej _ hdup
    refine ⟨fun hs => absurd h (by simp [Option.isSome_iff_ne_none.mp hs]), fun _ => ?_,
      by rw [h2], by rw [h2]⟩
    refine ⟨by simp [add_question, h], hsnd, ?_, ?_, ?_, ?_⟩ <;>
      simp [add_question, h, save_question]
  · have hr := hrej st h
    have h2 : add_question normalize (add_question normalize st question).2 question
        = (SubmitResult.rejected, (add_question normalize st question).2) := by
      rw [hr]
      exact hrej st h
    refine ⟨fun _ => hr, fun hn => absurd hn h, by rw [h2], by rw [h2]⟩

/-- Witness for C5: submitting the question "why" twice to the fresh store
yields Accepted then Rejected, and the rejected attempt leaves the state of
the first submission unchanged. -/
theorem add_question_dedup_witness :
    (add_question id emptyState "why".toList).1 = SubmitResult.accepted
    ∧ (add_question id (add_question id emptyState "why".toList).2 "why".toList).1
        = SubmitResult.rejected
    ∧ (add_question id (add_question id emptyState "why".toList).2 "why".toList).2
        = (add_question id emptyState "why".toList).2 := by
  have h := add_question_dedup id emptyState "why".toList
  exact ⟨(h.2.1 (by decide)).1, h.2.2.1, h.2.2.2⟩

/-! ## C10: sentiment lookup when browsing by category -/

lemma find?_first_match {α : Type} (p : α → Bool) (pre : List α) (x : α) (post : List α)
    (hpre : ∀ y ∈ pre, p y = false) (hx : p x = true) :
    List.find? p (pre ++ x :: post) = some x := by
  induction pre with
  | nil => simp [List.find?_cons_of_pos, hx]
  | cons a rest ih =>
    have ha := hpre a (by simp)
    rw [List.cons_append, List.find?_cons_of_neg _ (by simp [ha])]
    exact ih (fun y hy => hpre y (by simp [hy]))

/-- C10: when browsing suggestions by category, every bucket entry is
displayed (none dropped, no error); the sentiment shown is that of the
first entry of the authoritative suggestions list with exactly equal text,
and the literal "Unknown" when no entry matches or the first matching entry
has no sentiment field. -/
theorem view_by_category_sentiment (st : BoxState) (c : Category) :
    (view_suggestions_by_category st c).length = (bucketOf st.categories c).length
    ∧ view_suggestions_by_category st c
        = (bucketOf st.categories c).map (fun t => (t, lookupSentiment st.suggestions t))
    ∧ (∀ t, (∀ sug ∈ st.suggestions, sug.text ≠ t) →
        lookupSentiment st.suggestions t = "Unknown".toList)
    ∧ (∀ t pre sug post, st.suggestions = pre ++ sug :: post →
        (∀ p ∈ pre, p.text ≠ t) → sug.text = t →
        lookupSentiment st.suggestions t = sug.sentiment.getD "Unknown".toList) := by
  refine ⟨by simp [view_suggestions_by_category], rfl, fun t hno => ?_,
    fun t pre sug post hsplit hpre hsug => ?_⟩
  · have : List.find? (fun sug => decide (sug.text = t)) st.suggestions = none := by
      rw [List.find?_eq_none]
      intro x hx
      simp [hno x hx]
    simp [lookupSentiment, this]
  · have : List.find? (fun sug => decide (sug.text = t)) st.suggestions = some sug := by
      rw [hsplit]
      exact find?_first_match _ pre sug post
        (fun y hy => by simp [hpre y hy]) (by simp [hsug])
    simp [lookupSentiment, this]

/-- Witness for C10: a bucket entry with no counterpart in the suggestions
list shows "Unknown", a first match without a sentiment field shows
"Unknown", and a first match with a sentiment field shows that
sentiment. -/
theorem view_by_category_sentiment_witness :
    lookupSentiment [⟨"a".toList, some "Positive".toList⟩, ⟨"b".toList, none⟩]
        "c".toList = "Unknown".toList
    ∧ lookupSentiment [⟨"a".toList, some "Positive".toList⟩, ⟨"b".toList, none⟩]
        "b".toList = "Unknown".toList
    ∧ lookupSentiment [⟨"a".toList, some "Positive".toList⟩, ⟨"b".toList, none⟩]
        "a".toList = "Positive".toList := by
  have h := view_by_category_sentiment
    { emptyState with
        suggestions := [⟨"a".toList, some "Positive".toList⟩, ⟨"b".toList, none⟩] }
    Category.Other
  exact ⟨h.2.2.1 "c".toList (by decide),
    h.2.2.2 "b".toList [⟨"a".toList, some "Positive".toList⟩] ⟨"b".toList, none⟩ []
      rfl (by decide) rfl,
    h.2.2.2 "a".toList [] ⟨"a".toList, some "Positive".toList⟩ [⟨"b".toList, none⟩]
      rfl (by decide) rfl⟩

/-! ## C4: malformed records during restore -/

/-- The well-formed records among the lines of a suggestions log. -/
def recordsOf (lines : List SugLine) : List SuggestionEntry :=
  lines.filterMap (fun l => match l with
    | SugLine.record entry => some entry
    | _ => none)

/-- Replay of the category classifier over a list of restored records. -/
def replayBuckets (b : Buckets) (entries : List SuggestionEntry) : Buckets :=
  entries.foldl (fun b1 e => (categorize_suggestion e.text b1).2) b

/-- Counterexample to C4: a suggestions log holding a malformed record (a
line that is valid JSON but not a record with a text field, such as the
line "{}") followed by a well-formed record.  `load_suggestions` catches
only `json.JSONDecodeError`, so indexing the parsed entry raises an
uncaught exception: restore aborts at the malformed line instead of
skipping it, and the well-formed record after it is never loaded into
memory (the error state still has an empty suggestions list). -/
theorem restore_aborts_on_malformed_record :
    restore { emptyState with
        sugFile := some [SugLine.jsonNoText,
          SugLine.record ⟨"office".toList, some "Positive".toList⟩] }
      = Except.error { emptyState with
          sugFile := some [SugLine.jsonNoText,
            SugLine.record ⟨"office".toList, some "Positive".toList⟩] } := by
  decide

/-- C4 amended: restore skips each log line that fails JSON parsing (and
each blank line) with a logged warning and continues, and every well-formed
record in the log is loaded into memory — provided no line parses as JSON
without yielding a record carrying a text field; such a line raises an
uncaught exception and aborts the restore. -/
theorem load_suggestions_skips_invalid (st : BoxState) (lines : List SugLine)
    (hfile : st.sugFile = some lines)
    (hok : ∀ l ∈ lines, l ≠ SugLine.jsonNoText) :
    load_suggestions st = Except.ok
      { st with suggestions := st.suggestions ++ recordsOf lines,
                categories := replayBuckets st.categories (recordsOf lines) } := by
  have key : ∀ (ls : List SugLine) (sugs : List SuggestionEntry) (b : Buckets),
      (∀ l ∈ ls, l ≠ SugLine.jsonNoText) →
      loadSugLines ls sugs b
        = Except.ok (sugs ++ recordsOf ls, replayBuckets b (recordsOf ls)) := by
    intro ls
    induction ls with
    | nil => intro sugs b _; simp [loadSugLines, recordsOf, replayBuckets]
    | cons l rest ih =>
      intro sugs b hok1
      have hrest : ∀ l1 ∈ rest, l1 ≠ SugLine.jsonNoText :=
        fun l1 hl1 => hok1 l1 (List.mem_cons_of_mem l hl1)
      cases l with
      | blank => simpa [loadSugLines, recordsOf] using ih sugs b hrest
      | notJson => simpa [loadSugLines, recordsOf] using ih sugs b hrest
      | jsonNoText => exact absurd rfl (hok1 SugLine.jsonNoText (List.mem_cons_self _ _))
      | record entry =>
        rw [show loadSugLines (SugLine.record entry :: rest) sugs b
            = loadSugLines rest (sugs ++ [entry]) (categorize_suggestion entry.text b).2
          from rfl]
        rw [ih (sugs ++ [entry]) (categorize_suggestion entry.text b).2 hrest]
        simp [recordsOf, replayBuckets]
  simp [load_suggestions, hfile, key lines st.suggestions st.categories hok]

/-- Witness for the amended C4: a log with an undecodable line and a blank
line among two well-formed records restores exactly the two records. -/
theorem load_suggestions_skips_invalid_witness :
    load_suggestions { emptyState with
        sugFile := some [SugLine.notJson,
          SugLine.record ⟨"more light".toList, some "Neutral".toList⟩,
          SugLine.blank,
          SugLine.record ⟨"better bonus".toList, some "Positive".toList⟩] }
      = Except.ok { { emptyState with
            sugFile := some [SugLine.notJson,
              SugLine.record ⟨"more light".toList, some "Neutral".toList⟩,
              SugLine.blank,
              SugLine.record ⟨"better bonus".toList, some "Positive".toList⟩] } with
          suggestions := [] ++ recordsOf [SugLine.notJson,
              SugLine.record ⟨"more light".toList, some "Neutral".toList⟩,
              SugLine.blank,
              SugLine.record ⟨"better bonus".toList, some "Positive".toList⟩],
          categories := replayBuckets emptyBuckets (recordsOf [SugLine.notJson,
              SugLine.record ⟨"more light".toList, some "Neutral".toList⟩,
              SugLine.blank,
              SugLine.record ⟨"better bonus".toList, some "Positive".toList⟩]) } :=
  load_suggestions_skips_invalid _ _ rfl (by decide)

/-! ## C2: suggestion round-trip through a restart -/

lemma loadSugLines_append (l1 l2 : List SugLine) (sugs : List SuggestionEntry) (b : Buckets) :
    loadSugLines (l1 ++ l2) sugs b =
      match loadSugLines l1 sugs b with
      | Except.ok (s, b1) => loadSugLines l2 s b1
      | Except.error e => Except.error e := by
  induction l1 generalizing sugs b with
  | nil => simp [loadSugLines]
  | cons l rest ih => cases l <;> simp [loadSugLines, ih]

lemma restart_eval (st : BoxState) :
    restart st =
      match loadSugLines (st.sugFile.getD []) [] emptyBuckets with
      | Except.ok (s, b) => Except.ok
          { st with suggestions := s,
                    questions := (loadQLines (st.qFile.getD []) [] none).1,
                    categories := b }
      | Except.error (s, b) => Except.error
          { st with suggestions := s, questions := [], categories := b } := by
  obtain ⟨sugs, qs, cats, sf, qf⟩ := st
  cases sf with
  | none =>
    cases qf <;>
      simp [restart, restore, clearMemory, load_suggestions, load_questions,
        loadSugLines, loadQLines]
  | some ls =>
    cases hres : loadSugLines ls [] emptyBuckets with
    | ok p =>
      obtain ⟨s, b⟩ := p
      cases qf <;>
        simp [restart, restore, clearMemory, load_suggestions, load_questions,
          hres, loadQLines]
    | error p =>
      obtain ⟨s, b⟩ := p
      cases qf <;>
        simp [restart, restore, clearMemory, load_suggestions, load_questions, hres]

/-- C2: for every raw text, after submit_suggestion(raw) followed by a
simulated restart (in-memory state cleared, then restore() replays the
suggestions durable log, taking sentiment verbatim from the persisted
record and recomputing the category buckets from the text), the whole
store state — in particular the stored suggestion's text, sentiment and
category-bucket membership — is identical to the pre-restart state.  The
hypothesis states that the starting state itself survives a restart, which
holds of every state the program can be in after its startup restore. -/
theorem submit_restart_roundtrip (normalize : Str → Str) (score : Str → Option ℚ)
    (st : BoxState) (raw : Str) (h : restart st = Except.ok st) :
    restart (add_suggestion normalize score st raw)
      = Except.ok (add_suggestion normalize score st raw) := by
  obtain ⟨sugs, qs, cats, sf, qf⟩ := st
  rw [restart_eval] at h
  dsimp only at h
  cases hres : loadSugLines (sf.getD []) [] emptyBuckets with
  | error p =>
    rw [hres] at h
    obtain ⟨s, b⟩ := p
    simp at h
  | ok p =>
    obtain ⟨s, b⟩ := p
    rw [hres] at h
    have hf := Except.ok.inj h
    simp only [BoxState.mk.injEq] at hf
    obtain ⟨h1, h2, h3, -, -⟩ := hf
    rw [restart_eval]
    show (match loadSugLines
        (Option.getD (some (sf.getD [] ++
          [SugLine.record ⟨normalize raw,
            some (analyze_sentiment (score (normalize raw)))⟩])) []) [] emptyBuckets with
      | Except.ok (s, b) => Except.ok _
      | Except.error (s, b) => Except.error _) = _
    rw [Option.getD_some, loadSugLines_append, hres]
    dsimp only
    rw [show loadSugLines
        [SugLine.record ⟨normalize raw, some (analyze_sentiment (score (normalize raw)))⟩] s b
      = Except.ok (s ++ [⟨normalize raw, some (analyze_sentiment (score (normalize raw)))⟩],
          (categorize_suggestion (normalize raw) b).2) from rfl]
    simp [add_suggestion, save_suggestion, h1, h2, h3]

/-- Witness for C2: the fresh store survives a restart, and submitting
"I love the office chairs" to it then restarting reproduces the state. -/
theorem submit_restart_roundtrip_witness :
    restart (add_suggestion id (fun _ => none) emptyState "I love the office chairs".toList)
      = Except.ok
          (add_suggestion id (fun _ => none) emptyState "I love the office chairs".toList) :=
  submit_restart_roundtrip id (fun _ => none) emptyState
    "I love the office chairs".toList (by decide)

/-! ## C9: category membership is a partition -/

lemma bucketOf_bucketAppend (b : Buckets) (c : Category) (t : Str) (c1 : Category) :
    bucketOf (bucketAppend b c t) c1 =
      if c = c1 then bucketOf b c1 ++ [t] else bucketOf b c1 := by
  cases c <;> cases c1 <;> simp [bucketOf, bucketAppend]

/-- The memory-level partition invariant: every bucket entry classifies to
its bucket, every stored suggestion's text sits in its classified bucket,
and the bucket sizes sum to the number of suggestions. -/
def InvM (sugs : List SuggestionEntry) (b : Buckets) : Prop :=
  (∀ c, ∀ t ∈ bucketOf b c, classify t = c)
  ∧ (∀ sug ∈ sugs, sug.text ∈ bucketOf b (classify sug.text))
  ∧ (bucketOf b Category.Facility).length + (bucketOf b Category.WorkProcess).length
      + (bucketOf b Category.Benefits).length + (bucketOf b Category.Other).length
    = sugs.length

lemma InvM_nil : InvM [] emptyBuckets := by
  refine ⟨fun c t ht => ?_, fun sug hs => absurd hs (List.not_mem_nil sug), rfl⟩
  cases c <;> simp [bucketOf, emptyBuckets] at ht

lemma InvM_step (sugs : List SuggestionEntry) (b : Buckets) (entry : SuggestionEntry)
    (h : InvM sugs b) :
    InvM (sugs ++ [entry]) (categorize_suggestion entry.text b).2 := by
  obtain ⟨hc, hm, hl⟩ := h
  rw [categorize_suggestion_eq]
  refine ⟨?_, ?_, ?_⟩
  · intro c t ht
    rw [bucketOf_bucketAppend] at ht
    by_cases hcc : classify entry.text = c
    · rw [if_pos hcc] at ht
      rcases List.mem_append.mp ht with h1 | h1
      · exact hc c t h1
      · rw [List.mem_singleton] at h1; subst h1; exact hcc
    · rw [if_neg hcc] at ht
      exact hc c t ht
  · intro sug hs
    rw [bucketOf_bucketAppend]
    rcases List.mem_append.mp hs with h1 | h1
    · by_cases hcc : classify entry.text = classify sug.text
      · rw [if_pos hcc]
        exact List.mem_append_left _ (hm sug h1)
      · rw [if_neg hcc]
        exact hm sug h1
    · rw [List.mem_singleton] at h1; subst h1
      rw [if_pos rfl]
      exact List.mem_append_right _ (List.mem_singleton.mpr rfl)
  · have hb : ∀ c1, (bucketOf (bucketAppend b (classify entry.text) entry.text) c1).length
        = (bucketOf b c1).length + (if classify entry.text = c1 then 1 else 0) := by
      intro c1
      rw [bucketOf_bucketAppend]
      by_cases hcc : classify entry.text = c1 <;> simp [hcc]
    rw [hb, hb, hb, hb, List.length_append]
    cases hcl : classify entry.text <;> simp [hcl] <;> omega

lemma loadSugLines_InvM (ls : List SugLine) (sugs : List SuggestionEntry) (b : Buckets)
    (h : InvM sugs b) (s1 : List SuggestionEntry) (b1 : Buckets)
    (he : loadSugLines ls sugs b = Except.ok (s1, b1)) : InvM s1 b1 := by
  induction ls generalizing sugs b with
  | nil =>
    obtain ⟨rfl, rfl⟩ : sugs = s1 ∧ b = b1 := by
      have := Except.ok.inj he
      exact ⟨congrArg Prod.fst this, congrArg Prod.snd this⟩
    exact h
  | cons l rest ih =>
    cases l with
    | blank => exact ih sugs b h he
    | notJson => exact ih sugs b h he
    | jsonNoText => exact absurd he (by simp [loadSugLines])
    | record entry =>
      exact ih (sugs ++ [entry]) (categorize_suggestion entry.text b).2
        (InvM_step sugs b entry h) he

lemma reachable_InvM (st : BoxState) (h : Reachable st) :
    InvM st.suggestions st.categories := by
  induction h with
  | init => exact InvM_nil
  | submit normalize score raw hr ih =>
    simpa [add_suggestion, save_suggestion] using
      InvM_step _ _ ⟨normalize raw, some (analyze_sentiment (score (normalize raw)))⟩ ih
  | restartStep hr heq ih =>
    rename_i st0 st1
    rw [restart_eval] at heq
    cases hres : loadSugLines (st0.sugFile.getD []) [] emptyBuckets with
    | error p => rw [hres] at heq; obtain ⟨s, b⟩ := p; simp at heq
    | ok p =>
      obtain ⟨s, b⟩ := p
      rw [hres] at heq
      have hinv := loadSugLines_InvM _ [] emptyBuckets InvM_nil s b hres
      have h1 := Except.ok.inj heq
      rw [← h1]
      exact hinv
  | wipe hr ih => exact InvM_nil

/-- C9: in every state reachable by any sequence of submit_suggestion,
restore and wipe operations, category membership is a partition of the
suggestions: each stored suggestion's text lies in exactly one category
bucket, and the bucket counts sum to the length of the suggestions list. -/
theorem reachable_partition (st : BoxState) (h : Reachable st) :
    (∀ sug ∈ st.suggestions, ∃! c, sug.text ∈ bucketOf st.categories c)
    ∧ (bucketOf st.categories Category.Facility).length
        + (bucketOf st.categories Category.WorkProcess).length
        + (bucketOf st.categories Category.Benefits).length
        + (bucketOf st.categories Category.Other).length
      = st.suggestions.length := by
  obtain ⟨hc, hm, hl⟩ := reachable_InvM st h
  exact ⟨fun sug hs =>
    ⟨classify sug.text, hm sug hs, fun c1 hc1 => (hc c1 sug.text hc1).symm⟩, hl⟩

/-- Witness for C9 at a concrete reachable state: the store after
submitting "office" to the fresh store. -/
theorem reachable_partition_witness :
    (∀ sug ∈ (add_suggestion id (fun _ => none) emptyState "office".toList).suggestions,
      ∃! c, sug.text ∈
        bucketOf (add_suggestion id (fun _ => none) emptyState "office".toList).categories c)
    ∧ (bucketOf (add_suggestion id (fun _ => none) emptyState "office".toList).categories
          Category.Facility).length
        + (bucketOf (add_suggestion id (fun _ => none) emptyState "office".toList).categories
          Category.WorkProcess).length
        + (bucketOf (add_suggestion id (fun _ => none) emptyState "office".toList).categories
          Category.Benefits).length
        + (bucketOf (add_suggestion id (fun _ => none) emptyState "office".toList).categories
          Category.Other).length
      = (add_suggestion id (fun _ => none) emptyState "office".toList).suggestions.length :=
  reachable_partition _ (Reachable.submit id (fun _ => none) "office".toList Reachable.init)

/-! ## C7: merging question record blocks on restore -/

/-- One record block of questions.txt: a question line, zero or more answer
lines, and the end-of-record delimiter. -/
def qBlock (q : Str) (ans : List Str) : List Str :=
  ("Q: ".toList ++ q) :: (ans.map (fun a => "A: ".toList ++ a) ++ ["---".toList])

lemma loadQLine_question (qs : List (Str × List Str)) (cur : Option Str) (q : Str)
    (hq : pyStrip ("Q: ".toList ++ q) = "Q: ".toList ++ q) :
    loadQLine (qs, cur) ("Q: ".toList ++ q)
      = ((if (qLookup qs q).isSome then qs else qs ++ [(q, [])]), some q) := by
  have hpref : List.isPrefixOf "Q: ".toList ("Q: ".toList ++ q) = true :=
    List.isPrefixOf_iff_prefix.mpr (List.prefix_append _ _)
  have hdrop : ("Q: ".toList ++ q).drop 3 = q := List.drop_left "Q: ".toList q
  simp only [loadQLine, hq, hpref, if_true, hdrop]

lemma loadQLine_answer (qs : List (Str × List Str)) (q a : Str)
    (ha : pyStrip ("A: ".toList ++ a) = "A: ".toList ++ a) :
    loadQLine (qs, some q) ("A: ".toList ++ a) = (qAddAnswer qs q a, some q) := by
  have hnq : List.isPrefixOf "Q: ".toList ("A: ".toList ++ a) = false := rfl
  have hpref : List.isPrefixOf "A: ".toList ("A: ".toList ++ a) = true :=
    List.isPrefixOf_iff_prefix.mpr (List.prefix_append _ _)
  have hdrop : ("A: ".toList ++ a).drop 3 = a := List.drop_left "A: ".toList a
  simp only [loadQLine, ha, hnq, hpref, if_true, if_false, Bool.false_eq_true, hdrop]

lemma loadQLine_delim (qs : List (Str × List Str)) (cur : Option Str) :
    loadQLine (qs, cur) "---".toList = (qs, none) := rfl

lemma foldl_answer_lines (ans : List Str) (qs : List (Str × List Str)) (q : Str)
    (hca : ∀ a ∈ ans, pyStrip ("A: ".toList ++ a) = "A: ".toList ++ a) :
    (ans.map (fun a => "A: ".toList ++ a)).foldl loadQLine (qs, some q)
      = (ans.foldl (fun m a => qAddAnswer m q a) qs, some q) := by
  induction ans generalizing qs with
  | nil => rfl
  | cons a rest ih =>
    rw [List.map_cons, List.foldl_cons,
      loadQLine_answer qs q a (hca a (List.mem_cons_self _ _)), List.foldl_cons]
    exact ih _ (fun x hx => hca x (List.mem_cons_of_mem _ hx))

lemma loadQLines_block (q : Str) (ans : List Str) (qs : List (Str × List Str))
    (cur : Option Str)
    (hq : pyStrip ("Q: ".toList ++ q) = "Q: ".toList ++ q)
    (hca : ∀ a ∈ ans, pyStrip ("A: ".toList ++ a) = "A: ".toList ++ a) :
    loadQLines (qBlock q ans) qs cur
      = (ans.foldl (fun m a => qAddAnswer m q a)
          (if (qLookup qs q).isSome then qs else qs ++ [(q, [])]), none) := by
  unfold loadQLines qBlock
  rw [List.foldl_cons, loadQLine_question qs cur q hq, List.foldl_append,
    foldl_answer_lines ans _ q hca]
  rw [List.foldl_cons, loadQLine_delim]
  rfl

lemma qAddAnswer_foldl_single (q : Str) (acc : List Str) (ans : List Str) :
    ans.foldl (fun m a => qAddAnswer m q a) [(q, acc)] = [(q, acc ++ ans)] := by
  induction ans generalizing acc with
  | nil => simp
  | cons a rest ih =>
    rw [List.foldl_cons, show qAddAnswer [(q, acc)] q a = [(q, acc ++ [a])] by
      simp [qAddAnswer], ih (acc ++ [a])]
    simp

lemma loadQLines_blocks_aux (q : Str) (blocks : List (List Str)) (acc : List Str)
    (hq : pyStrip ("Q: ".toList ++ q) = "Q: ".toList ++ q)
    (hcb : ∀ bl ∈ blocks, ∀ a ∈ bl, pyStrip ("A: ".toList ++ a) = "A: ".toList ++ a) :
    loadQLines ((blocks.map (qBlock q)).flatten) [(q, acc)] none
      = ([(q, acc ++ blocks.flatten)], none) := by
  induction blocks generalizing acc with
  | nil => simp [loadQLines]
  | cons bl rest ih =>
    rw [List.map_cons, List.flatten_cons]
    show List.foldl loadQLine ([(q, acc)], none) (qBlock q bl ++ (rest.map (qBlock q)).flatten)
      = _
    rw [List.foldl_append]
    rw [show List.foldl loadQLine ([(q, acc)], none) (qBlock q bl)
        = loadQLines (qBlock q bl) [(q, acc)] none from rfl]
    rw [loadQLines_block q bl [(q, acc)] none hq
      (fun a ha => hcb bl (List.mem_cons_self _ _) a ha)]
    rw [show (qLookup [(q, acc)] q).isSome = true by simp [qLookup]]
    rw [if_pos rfl, qAddAnswer_foldl_single]
    rw [show List.foldl loadQLine ([(q, acc ++ bl)], none) ((rest.map (qBlock q)).flatten)
        = loadQLines ((rest.map (qBlock q)).flatten) [(q, acc ++ bl)] none from rfl]
    rw [ih (acc ++ bl) (fun b1 hb1 a ha => hcb b1 (List.mem_cons_of_mem _ hb1) a ha)]
    simp

/-- C7: a questions durable log consisting of several record blocks
(question line, answer lines, end-of-record delimiter) for the same
question text restores to a single in-memory question entry whose answer
list contains all answers from all blocks in log order.  The cleanliness
hypotheses say the question and answer texts survive the line strip()
applied during parsing. -/
theorem load_questions_merges_blocks (q : Str) (blocks : List (List Str))
    (hne : blocks ≠ [])
    (hq : pyStrip ("Q: ".toList ++ q) = "Q: ".toList ++ q)
    (hcb : ∀ bl ∈ blocks, ∀ a ∈ bl, pyStrip ("A: ".toList ++ a) = "A: ".toList ++ a) :
    (load_questions { emptyState with
        qFile := some ((blocks.map (qBlock q)).flatten) }).questions
      = [(q, blocks.flatten)] := by
  obtain ⟨bl, rest, rfl⟩ : ∃ bl rest, blocks = bl :: rest := by
    cases blocks with
    | nil => exact absurd rfl hne
    | cons bl rest => exact ⟨bl, rest, rfl⟩
  simp only [load_questions]
  rw [List.map_cons, List.flatten_cons]
  show (List.foldl loadQLine ([], none) (qBlock q bl ++ (rest.map (qBlock q)).flatten)).1
    = _
  rw [List.foldl_append]
  rw [show List.foldl loadQLine (([] : List (Str × List Str)), none) (qBlock q bl)
      = loadQLines (qBlock q bl) [] none from rfl]
  rw [loadQLines_block q bl [] none hq (fun a ha => hcb bl (List.mem_cons_self _ _) a ha)]
  rw [show ((qLookup ([] : List (Str × List Str)) q).isSome = false) from rfl]
  rw [if_neg (by simp), List.nil_append]
  rw [show List.foldl (fun m a => qAddAnswer m q a) [(q, [])] bl = [(q, [] ++ bl)] from
    qAddAnswer_foldl_single q [] bl]
  rw [show List.foldl loadQLine ([(q, [] ++ bl)], none) ((rest.map (qBlock q)).flatten)
      = loadQLines ((rest.map (qBlock q)).flatten) [(q, [] ++ bl)] none from rfl]
  rw [loadQLines_blocks_aux q rest ([] ++ bl) hq
    (fun b1 hb1 a ha => hcb b1 (List.mem_cons_of_mem _ hb1) a ha)]
  simp

/-- Witness for C7: two blocks for the question "why", carrying answers "a"
and "b", restore to the single entry ("why", ["a", "b"]). -/
theorem load_questions_merges_blocks_witness :
    (load_questions { emptyState with
        qFile := some (([["a".toList], ["b".toList]].map (qBlock "why".toList)).flatten)
      }).questions
      = [("why".toList, [["a".toList], ["b".toList]].flatten)] :=
  load_questions_merges_blocks "why".toList [["a".toList], ["b".toList]]
    (by decide) (by decide) (by decide)

end SuggestionBox
